import Mathlib

/-!
Verification of the dollop-music-backend core: tracks, playlists, users,
their controllers, and the mongoose document operations they perform.
Every definition is a direct translation of the corresponding TypeScript
source (controllers in src/controllers, schemas in src/models, routes in
src/routes).  Mongo ObjectIds are modelled as naturals, documents as
structures, collections as lists, and each controller action as a function
from the datastore and request data to an `Except` of the error the
express error middleware would serialize (message and HTTP status).
-/

namespace DollopMusic

/-- Mongo ObjectId, modelled as a natural number. -/
abbrev MongoId := Nat

/-- AppError from src/middleware/error: a message and an HTTP status code. -/
structure AppError where
  message : String
  statusCode : Nat
deriving Repr, DecidableEq

instance exceptDecEq {e a : Type} [DecidableEq e] [DecidableEq a] :
    DecidableEq (Except e a) := fun x y =>
  match x, y with
  | .error u, .error v =>
    if h : u = v then .isTrue (by rw [h]) else .isFalse (fun hc => h (Except.error.inj hc))
  | .error _, .ok _ => .isFalse (fun hc => Except.noConfusion hc)
  | .ok _, .error _ => .isFalse (fun hc => Except.noConfusion hc)
  | .ok u, .ok v =>
    if h : u = v then .isTrue (by rw [h]) else .isFalse (fun hc => h (Except.ok.inj hc))

/-- A MusicTrack document (musicTrackSchema in src/models/MusicTrack.ts).
`createdAt` stands for the timestamps the schema adds. -/
structure MusicTrack where
  _id : MongoId
  title : String
  artist : String
  duration : Nat
  fileUrl : String
  coverArt : Option String := none
  genre : Option String := none
  tags : List String := []
  playCount : Nat := 0
  isPublic : Bool := false
  owner : MongoId
  createdAt : Nat := 0
deriving Repr, DecidableEq

/-- A Playlist document (playlistSchema in src/models/Playlist.ts). -/
structure Playlist where
  _id : MongoId
  name : String
  description : Option String := none
  coverImage : Option String := none
  tracks : List MongoId := []
  owner : MongoId
  isPublic : Bool := false
  followers : List MongoId := []
  createdAt : Nat := 0
deriving Repr, DecidableEq

/-- A User document (userSchema in src/models/User.ts).  The schema declares
username, email, password and preferences; it declares no refreshToken path.
The field below records what, if anything, the application layer has stored
under that name on the document: no request handler ever assigns it, so it
is `none` in every document the code can produce. -/
structure UserDoc where
  _id : MongoId
  username : String
  email : String
  password : String
  refreshToken : Option String := none
deriving Repr, DecidableEq

/-- The datastore: one collection per model. -/
structure DB where
  tracks : List MusicTrack := []
  playlists : List Playlist := []
  users : List UserDoc := []
deriving Repr, DecidableEq

/-- Model.findById for tracks. -/
def findTrack (db : DB) (id : MongoId) : Option MusicTrack :=
  db.tracks.find? (fun t => t._id == id)

/-- Model.findById for playlists. -/
def findPlaylist (db : DB) (id : MongoId) : Option Playlist :=
  db.playlists.find? (fun p => p._id == id)

/-- JS `[...new Set(xs)]`: de-duplication keeping the first occurrence of
each element, preserving order (used by both pre-save middlewares). -/
def dedupFirst {α : Type} [DecidableEq α] : List α → List α
  | [] => []
  | x :: xs => x :: (dedupFirst xs).filter (fun y => y ≠ x)

/-- String prefix test over the underlying character lists. -/
def beginsWith (pre s : String) : Bool :=
  pre.data.isPrefixOf s.data

/-- JS String.prototype.trim: strip leading and trailing whitespace. -/
def jsTrim (s : String) : String :=
  String.mk (((s.data.dropWhile Char.isWhitespace).reverse.dropWhile
    Char.isWhitespace).reverse)

/-- The URL validator shared by fileUrl, coverArt and coverImage:
the regex accepts `http://` or `https://` followed by at least one
character. -/
def matchesUrl (s : String) : Bool :=
  (beginsWith ("http://") s && 7 < s.length) ||
    (beginsWith ("https://") s && 8 < s.length)

/-- Validation musicTrackSchema runs on save: required non-empty title and
artist with maxlength 100, a well-formed fileUrl, optional coverArt URL,
genre of at most 50 characters, tags of at most 20 characters each.
Duration and playCount carry only non-negativity constraints, which the
Nat representation makes implicit. -/
def validTrack (t : MusicTrack) : Bool :=
  !(t.title == "") && t.title.length ≤ 100 &&
    !(t.artist == "") && t.artist.length ≤ 100 &&
    matchesUrl t.fileUrl &&
    (match t.coverArt with | none => true | some c => matchesUrl c) &&
    (match t.genre with | none => true | some g => g.length ≤ 50) &&
    t.tags.all (fun tag => tag.length ≤ 20)

/-- The async element validator on playlistSchema.tracks: each referenced
track id must resolve to an existing MusicTrack document. -/
def validTracks (db : DB) (ids : List MongoId) : Bool :=
  ids.all (fun i => db.tracks.any (fun t => t._id == i))

/-- Validation of the scalar playlist fields on save: required non-empty
name with maxlength 100, description at most 500 characters, optional
coverImage URL. -/
def playlistFieldsValid (p : Playlist) : Bool :=
  !(p.name == "") && p.name.length ≤ 100 &&
    (match p.description with | none => true | some d => d.length ≤ 500) &&
    (match p.coverImage with | none => true | some c => matchesUrl c)

/-- In-place persistence of a track document (by _id). -/
def savedTracks (db : DB) (t : MusicTrack) : DB :=
  { db with tracks := db.tracks.map (fun u => if u._id == t._id then t else u) }

/-- document.save() for a track: mongoose validates the document and then
persists it in place (by _id). -/
def saveTrack (db : DB) (t : MusicTrack) : Except AppError DB :=
  if validTrack t then .ok (savedTracks db t)
  else .error ⟨"Validation failed", 400⟩

/-- In-place persistence of a playlist document (by _id). -/
def savedPlaylists (db : DB) (p : Playlist) : DB :=
  { db with playlists := db.playlists.map (fun q => if q._id == p._id then p else q) }

/-- document.save() for a playlist: mongoose validates the document
(scalar fields and the tracks element validator) and persists it in
place. -/
def savePlaylist (db : DB) (p : Playlist) : Except AppError DB :=
  if playlistFieldsValid p && validTracks db p.tracks then
    .ok (savedPlaylists db p)
  else .error ⟨"Validation failed", 400⟩

/-- The tags pre-save middleware: when tags were modified, remove
duplicates and entries that are blank after trimming. -/
def normalizeTags (tags : List String) : List String :=
  (dedupFirst tags).filter (fun tag => 0 < (jsTrim tag).length)

namespace MusicTrack

/-- musicTrackSchema.methods.incrementPlayCount: `this.playCount += 1`
followed by `this.save()` — the save persists the play count computed in
application memory, it does not issue an atomic increment. -/
def incrementPlayCount (t : MusicTrack) : MusicTrack :=
  { t with playCount := t.playCount + 1 }

end MusicTrack

namespace TrackController

/-- TrackController.getOne: 404 when absent; 403 when the track is private
and the requester is anonymous or not the owner; otherwise the track. -/
def getOne (db : DB) (viewer : Option MongoId) (id : MongoId) :
    Except AppError MusicTrack :=
  match findTrack db id with
  | none => .error ⟨"Track not found", 404⟩
  | some track =>
    if !track.isPublic &&
        (match viewer with | none => true | some v => !(track.owner == v)) then
      .error ⟨"Not authorized to access this track", 403⟩
    else .ok track

/-- TrackController.delete: 404 when absent, 403 unless the requester owns
the track, otherwise `track.deleteOne()`.  The schema registers no delete
middleware, so only the track document itself is removed; the playlists
collection is not touched. -/
def delete (db : DB) (viewer : MongoId) (id : MongoId) : Except AppError DB :=
  match findTrack db id with
  | none => .error ⟨"Track not found", 404⟩
  | some track =>
    if !(track.owner == viewer) then
      .error ⟨"Not authorized to delete this track", 403⟩
    else
      .ok { db with tracks := db.tracks.filter (fun t => !(t._id == id)) }

/-- TrackController.incrementPlayCount: findById, 404 when absent, then the
incrementPlayCount method (mutate in memory, save), responding with the
mutated document's playCount. -/
def incrementPlayCount (db : DB) (id : MongoId) : Except AppError (DB × Nat) :=
  match findTrack db id with
  | none => .error ⟨"Track not found", 404⟩
  | some track =>
    let t := MusicTrack.incrementPlayCount track
    (saveTrack db t).map (fun db' => (db', t.playCount))

end TrackController

/-- trackRoutes registers `POST /:id/play` before `router.use(protect)`, so
the play endpoint runs for unauthenticated requests: the resolved principal
(if any) is not consulted at all. -/
def playEndpoint (db : DB) (auth : Option MongoId) (id : MongoId) :
    Except AppError (DB × Nat) :=
  TrackController.incrementPlayCount db id

/-- Two overlapping play-endpoint invocations against the same track in
which both findById reads complete before either save is applied: each save
persists the playCount computed from the same snapshot of the document. -/
def interleavedIncrements (db : DB) (id : MongoId) : Except AppError DB :=
  match findTrack db id, findTrack db id with
  | some t1, some t2 =>
    match saveTrack db (MusicTrack.incrementPlayCount t1) with
    | .error e => .error e
    | .ok db1 => saveTrack db1 (MusicTrack.incrementPlayCount t2)
  | _, _ => .error ⟨"Track not found", 404⟩

namespace Playlist

/-- playlistSchema.methods.addTrack: push the id unless it is already
present, saving only in that case (the pre-save middleware then dedups the
modified tracks array). -/
def addTrack (db : DB) (p : Playlist) (trackId : MongoId) : Except AppError DB :=
  if p.tracks.contains trackId then .ok db
  else savePlaylist db { p with tracks := dedupFirst (p.tracks ++ [trackId]) }

/-- playlistSchema.methods.removeTrack: filter the id out of the tracks
array and save unconditionally (the pre-save middleware dedups the modified
array). -/
def removeTrack (db : DB) (p : Playlist) (trackId : MongoId) : Except AppError DB :=
  savePlaylist db
    { p with tracks := dedupFirst (p.tracks.filter (fun i => !(i == trackId))) }

/-- playlistSchema.methods.addFollower: push unless present; tracks are not
modified, so the dedup middleware does not fire. -/
def addFollower (db : DB) (p : Playlist) (userId : MongoId) : Except AppError DB :=
  if p.followers.contains userId then .ok db
  else savePlaylist db { p with followers := p.followers ++ [userId] }

/-- playlistSchema.methods.removeFollower: filter the id out and save. -/
def removeFollower (db : DB) (p : Playlist) (userId : MongoId) : Except AppError DB :=
  savePlaylist db { p with followers := p.followers.filter (fun i => !(i == userId)) }

end Playlist

namespace PlaylistController

/-- PlaylistController.addTrack: 404 when the playlist is absent, 403 unless
the requester owns it, then the addTrack method; the response carries the
re-fetched playlist. -/
def addTrack (db : DB) (viewer : MongoId) (pid : MongoId) (trackId : MongoId) :
    Except AppError (DB × Option Playlist) :=
  match findPlaylist db pid with
  | none => .error ⟨"Playlist not found", 404⟩
  | some p =>
    if !(p.owner == viewer) then
      .error ⟨"Not authorized to modify this playlist", 403⟩
    else
      (Playlist.addTrack db p trackId).map (fun db' => (db', findPlaylist db' pid))

/-- PlaylistController.removeTrack: 404 only when the playlist itself is
absent, 403 unless the requester owns it, then the removeTrack method;
membership of the id is never checked. -/
def removeTrack (db : DB) (viewer : MongoId) (pid : MongoId) (trackId : MongoId) :
    Except AppError (DB × Option Playlist) :=
  match findPlaylist db pid with
  | none => .error ⟨"Playlist not found", 404⟩
  | some p =>
    if !(p.owner == viewer) then
      .error ⟨"Not authorized to modify this playlist", 403⟩
    else
      (Playlist.removeTrack db p trackId).map (fun db' => (db', findPlaylist db' pid))

/-- PlaylistController.toggleFollow: 404 when absent; then, with no
visibility check and no self-follow check, flip the requester's membership
in the follower set and respond with the new state and the re-fetched
follower count. -/
def toggleFollow (db : DB) (viewer : MongoId) (pid : MongoId) :
    Except AppError (DB × Bool × Nat) :=
  match findPlaylist db pid with
  | none => .error ⟨"Playlist not found", 404⟩
  | some p =>
    let isFollowing := p.followers.contains viewer
    let step := if isFollowing then Playlist.removeFollower db p viewer
                else Playlist.addFollower db p viewer
    step.map (fun db' =>
      let count := match findPlaylist db' pid with
                   | some q => q.followers.length
                   | none => 0
      (db', !isFollowing, count))

end PlaylistController

/-- The PUT /tracks/:id request body.  validateRequest checks the listed
fields when present but removes nothing, so every key of the body reaches
the controller; `owner` is a schema path not covered by the route rules,
and `extra` stands for keys that are not schema paths at all (set on the
document by Object.assign, then dropped by the strict schema on save). -/
structure TrackUpdateBody where
  title : Option String := none
  artist : Option String := none
  duration : Option Nat := none
  fileUrl : Option String := none
  coverArt : Option String := none
  genre : Option String := none
  tags : Option (List String) := none
  isPublic : Option Bool := none
  owner : Option MongoId := none
  extra : List (String × String) := []
deriving Repr, DecidableEq

/-- `Object.assign(track, req.body)`: every schema path present in the body
is written onto the document (the schema setters trim title, artist, genre
and tag entries); non-schema keys are dropped by the strict schema. -/
def objectAssign (t : MusicTrack) (b : TrackUpdateBody) : MusicTrack :=
  { t with
    title := match b.title with | none => t.title | some v => jsTrim v
    artist := match b.artist with | none => t.artist | some v => jsTrim v
    duration := b.duration.getD t.duration
    fileUrl := b.fileUrl.getD t.fileUrl
    coverArt := match b.coverArt with | none => t.coverArt | some v => some v
    genre := match b.genre with | none => t.genre | some v => some (jsTrim v)
    tags := match b.tags with | none => t.tags | some v => v.map (fun s => jsTrim s)
    isPublic := b.isPublic.getD t.isPublic
    owner := b.owner.getD t.owner }

namespace TrackController

/-- TrackController.update: 404 when absent, 403 unless the requester owns
the track, then Object.assign of the whole body followed by save (the tags
pre-save middleware fires when the body modified tags). -/
def update (db : DB) (viewer : MongoId) (id : MongoId) (b : TrackUpdateBody) :
    Except AppError (DB × MusicTrack) :=
  match findTrack db id with
  | none => .error ⟨"Track not found", 404⟩
  | some track =>
    if !(track.owner == viewer) then
      .error ⟨"Not authorized to update this track", 403⟩
    else
      let t1 := objectAssign track b
      let t2 := if b.tags.isSome then { t1 with tags := normalizeTags t1.tags } else t1
      (saveTrack db t2).map (fun db' => (db', t2))

end TrackController

/-- JWT issued by userSchema.methods.generateAuthToken: an opaque signed
string determined by the user id. -/
def signAccessToken (uid : MongoId) : String :=
  "access." ++ toString uid

/-- JWT issued by userSchema.methods.generateRefreshToken: an opaque signed
string determined by the user id.  The method only signs and returns the
token; it stores nothing on the document. -/
def signRefreshToken (uid : MongoId) : String :=
  "refresh." ++ toString uid

/-- `User.findOne({ refreshToken })` as the datastore executes it: the user
schema declares no refreshToken path and config/database.ts sets mongoose
strictQuery to true, so the unknown path is stripped from the filter and
the query runs as `findOne()` with an empty condition — it returns the
first user document, if any. -/
def findOneByRefreshToken (users : List UserDoc) : Option UserDoc :=
  users.find? (fun _ => true)

namespace AuthController

/-- AuthController.register: conflict check on email or username, create
the user (the schema defines no refreshToken path and nothing assigns one),
generate both tokens, save, and respond with the tokens. -/
def register (db : DB) (username email password : String) (newId : MongoId) :
    Except AppError (DB × String × String) :=
  if db.users.any (fun u => u.email == email || u.username == username) then
    .error ⟨"User with this email or username already exists", 400⟩
  else
    let user : UserDoc :=
      { _id := newId, username := username, email := email,
        password := password, refreshToken := none }
    .ok ({ db with users := db.users ++ [user] },
         signAccessToken newId, signRefreshToken newId)

/-- AuthController.refreshToken: 400 when the body carries no token (JS
falsy also covers the empty string), then `User.findOne({ refreshToken })`
— which, the refreshToken path being absent from the schema and strictQuery
enabled, runs with the condition stripped and yields the first user — 401
only when that lookup finds no user at all, otherwise fresh tokens are
generated for the found user and the user saved; nothing is stored on the
document.  The presented token value never reaches the datastore. -/
def refreshToken (db : DB) (presented : Option String) :
    Except AppError (DB × String × String) :=
  match presented with
  | none => .error ⟨"Refresh token is required", 400⟩
  | some tok =>
    if tok == "" then .error ⟨"Refresh token is required", 400⟩
    else
      match findOneByRefreshToken db.users with
      | none => .error ⟨"Invalid refresh token", 401⟩
      | some user => .ok (db, signAccessToken user._id, signRefreshToken user._id)

end AuthController

/-- Every user document the application can produce carries no stored
refresh token: the schema defines no such path and no handler assigns
one. -/
def noStoredRefreshTokens (db : DB) : Bool :=
  db.users.all (fun u => u.refreshToken == none)

/-- Example fixture: a public track owned by user 1. -/
def exTrack : MusicTrack :=
  { _id := 10, title := "Song", artist := "Someone", duration := 180,
    fileUrl := "http://host/a.mp3", owner := 1, isPublic := true }

/-- Example fixture: a private track owned by user 1. -/
def exPrivate : MusicTrack :=
  { _id := 11, title := "Hidden", artist := "Someone", duration := 60,
    fileUrl := "http://host/b.mp3", owner := 1, isPublic := false }

/-- Example fixture: a public playlist of user 1 containing track 10. -/
def exPlaylist : Playlist :=
  { _id := 20, name := "Mix", owner := 1, isPublic := true, tracks := [10] }

/-- Example fixture: an empty private playlist of user 1. -/
def exSecret : Playlist :=
  { _id := 21, name := "Secret", owner := 1, isPublic := false, tracks := [] }

/-- Example fixture: user 1. -/
def exUser1 : UserDoc :=
  { _id := 1, username := "alice", email := "a@host", password := "h1" }

/-- Example fixture: user 2. -/
def exUser2 : UserDoc :=
  { _id := 2, username := "bob", email := "b@host", password := "h2" }

/-- Example fixture: the datastore holding the documents above. -/
def exDB : DB :=
  { tracks := [exTrack, exPrivate], playlists := [exPlaylist, exSecret],
    users := [exUser1, exUser2] }

/-- Example fixture: the user created by the registration scenario. -/
def exUserNew : UserDoc :=
  { _id := 7, username := "carol", email := "c@host", password := "h7" }

/-- Example fixture: the datastore right after that registration. -/
def exDBreg : DB := { users := [exUserNew] }

theorem mem_dedupFirst {α : Type} [DecidableEq α] (a : α) :
    ∀ l : List α, a ∈ dedupFirst l ↔ a ∈ l := by
  intro l
  induction l with
  | nil => simp [dedupFirst]
  | cons x xs ih =>
    unfold dedupFirst
    by_cases hax : a = x
    · subst hax; simp
    · simp only [List.mem_cons, List.mem_filter, ih]
      constructor
      · rintro (h | ⟨h, _⟩)
        · exact absurd h hax
        · exact Or.inr h
      · rintro (h | h)
        · exact absurd h hax
        · exact Or.inr ⟨h, by simpa using hax⟩

theorem nodup_dedupFirst {α : Type} [DecidableEq α] :
    ∀ l : List α, (dedupFirst l).Nodup := by
  intro l
  induction l with
  | nil => simp [dedupFirst]
  | cons x xs ih =>
    unfold dedupFirst
    refine List.nodup_cons.mpr ⟨?_, ih.filter _⟩
    intro hx
    have := List.of_mem_filter hx
    simp at this

theorem dedupFirst_eq_self {α : Type} [DecidableEq α] :
    ∀ l : List α, l.Nodup → dedupFirst l = l := by
  intro l
  induction l with
  | nil => intro _; rfl
  | cons x xs ih =>
    intro hnd
    rcases List.nodup_cons.mp hnd with ⟨hx, hxs⟩
    unfold dedupFirst
    rw [ih hxs]
    have hfix : xs.filter (fun y => y ≠ x) = xs := by
      apply List.filter_eq_self.mpr
      intro y hy
      simp only [ne_eq, decide_eq_true_eq]
      rintro rfl
      exact hx hy
    rw [hfix]

/-- Lemma about replacing the found document in a collection: a save
persists the updated document in place, so a later `find?` with the same
predicate retrieves the updated version. -/
theorem find?_map_update {α : Type} (p : α → Bool) (b : α) (hb : p b = true) :
    ∀ (l : List α) (a : α), l.find? p = some a →
      (l.map (fun x => if p x then b else x)).find? p = some b := by
  intro l
  induction l with
  | nil => intro a h; simp [List.find?] at h
  | cons x xs ih =>
    intro a h
    by_cases hx : p x = true
    · simp only [List.map_cons, hx, if_true, List.find?_cons, hb]
    · simp only [List.find?_cons, hx, Bool.false_eq_true, if_false] at h ⊢
      simp only [List.map_cons, hx, if_false, List.find?_cons,
        Bool.false_eq_true]
      exact ih a h

/-- A playlist save succeeds exactly when validation passes, and persists
in place. -/
theorem savePlaylist_ok (db : DB) (q : Playlist)
    (hfields : playlistFieldsValid q = true)
    (hvalid : validTracks db q.tracks = true) :
    savePlaylist db q = .ok (savedPlaylists db q) := by
  unfold savePlaylist
  rw [if_pos (by rw [hfields, hvalid]; rfl)]

/-- A track save succeeds exactly when validation passes, and persists in
place. -/
theorem saveTrack_ok (db : DB) (u : MusicTrack) (hvalid : validTrack u = true) :
    saveTrack db u = .ok (savedTracks db u) := by
  unfold saveTrack
  rw [if_pos hvalid]

/-- After a playlist save, re-fetching by an id that located the old
version yields the saved document. -/
theorem findPlaylist_after_save (db : DB) (p q : Playlist) (pid : MongoId)
    (hp : findPlaylist db pid = some p) (hq : q._id = p._id) :
    findPlaylist (savedPlaylists db q) pid = some q := by
  have hid : p._id = pid := by simpa using List.find?_some hp
  unfold findPlaylist at hp ⊢
  unfold savedPlaylists
  have hfun : (fun x : Playlist => if x._id == q._id then q else x) =
      (fun x : Playlist => if (fun r : Playlist => r._id == pid) x then q else x) := by
    funext x; rw [hq, hid]
  simp only [hfun]
  exact find?_map_update (fun r : Playlist => r._id == pid) q
    (by simp [hq, hid]) db.playlists p hp

/-- After a track save, re-fetching by an id that located the old version
yields the saved document. -/
theorem findTrack_after_save (db : DB) (t u : MusicTrack) (id : MongoId)
    (ht : findTrack db id = some t) (hu : u._id = t._id) :
    findTrack (savedTracks db u) id = some u := by
  have hid : t._id = id := by simpa using List.find?_some ht
  unfold findTrack at ht ⊢
  unfold savedTracks
  have hfun : (fun x : MusicTrack => if x._id == u._id then u else x) =
      (fun x : MusicTrack => if (fun r : MusicTrack => r._id == id) x then u else x) := by
    funext x; rw [hu, hid]
  simp only [hfun]
  exact find?_map_update (fun r : MusicTrack => r._id == id) u
    (by simp [hu, hid]) db.tracks t ht

/-- Filtering an element out leaves a list that does not contain it. -/
theorem contains_filter_out (l : List MongoId) (v : MongoId) :
    (l.filter (fun i => !(i == v))).contains v = false := by
  rw [Bool.eq_false_iff]
  intro hc
  have hm := List.elem_iff.mp hc
  have := List.of_mem_filter hm
  simp at this

/-- Appending an element yields a list that contains it. -/
theorem contains_append_self (l : List MongoId) (v : MongoId) :
    (l ++ [v]).contains v = true :=
  List.elem_iff.mpr (by simp)

/-- Claim C1, as stated, fails on the code: user 1 successfully deletes
track 10, yet playlist 20 — which contained 10 — still lists it, because
TrackController.delete triggers no purge of playlist references. -/
theorem trackDelete_keeps_playlist_refs_cx :
    ((TrackController.delete exDB 1 10).toOption.map
      (fun db' => db'.playlists.any (fun p => p.tracks.contains 10))) =
      some true := by
  decide

/-- Claim C1 amended: a successful owner delete removes the track document
and nothing else; the playlists collection is returned untouched, so every
playlist that previously contained the deleted id still contains it. -/
theorem trackDelete_no_purge (db : DB) (viewer id : MongoId) (db' : DB)
    (h : TrackController.delete db viewer id = .ok db') :
    db'.playlists = db.playlists ∧ db'.users = db.users ∧
      (∀ t ∈ db'.tracks, (t._id == id) = false) ∧
      (∀ p ∈ db.playlists, p.tracks.contains id →
        p ∈ db'.playlists ∧ p.tracks.contains id) := by
  unfold TrackController.delete at h
  split at h
  · cases h
  · split at h
    · cases h
    · cases h
      refine ⟨rfl, rfl, ?_, ?_⟩
      · intro t ht
        have := List.of_mem_filter ht
        simpa using this
      · intro p hp hc
        exact ⟨hp, hc⟩

/-- Witness for trackDelete_no_purge at the concrete fixture. -/
theorem trackDelete_no_purge_witness :
    ({ exDB with tracks := [exPrivate] } : DB).playlists = exDB.playlists ∧
      ({ exDB with tracks := [exPrivate] } : DB).users = exDB.users ∧
      (∀ t ∈ ({ exDB with tracks := [exPrivate] } : DB).tracks,
        (t._id == 10) = false) ∧
      (∀ p ∈ exDB.playlists, p.tracks.contains 10 →
        p ∈ ({ exDB with tracks := [exPrivate] } : DB).playlists ∧
          p.tracks.contains 10) :=
  trackDelete_no_purge exDB 1 10 { exDB with tracks := [exPrivate] } (by decide)

/-- When the playlist is found, toggleFollow reduces to the follower
mutation followed by the re-fetch of the follower count. -/
theorem toggleFollow_eq (db : DB) (viewer pid : MongoId) (p : Playlist)
    (hp : findPlaylist db pid = some p) :
    PlaylistController.toggleFollow db viewer pid =
      (if p.followers.contains viewer then Playlist.removeFollower db p viewer
       else Playlist.addFollower db p viewer).map (fun db' =>
        (db', !(p.followers.contains viewer),
          match findPlaylist db' pid with
          | some q => q.followers.length
          | none => 0)) := by
  unfold PlaylistController.toggleFollow
  rw [hp]

/-- Claim C2, as stated, fails on the code: user 2 toggles follow on the
PRIVATE playlist 21 of user 1 and succeeds with isFollowing true and one
follower (no Forbidden), and user 1 toggles follow on their own playlist 20
and succeeds as well (no BadRequest). -/
theorem toggleFollow_private_nonowner_cx :
    ((PlaylistController.toggleFollow exDB 2 21).toOption.map
      (fun r => (r.2.1, r.2.2))) = some (true, 1) ∧
    ((PlaylistController.toggleFollow exDB 1 20).toOption.map
      (fun r => (r.2.1, r.2.2))) = some (true, 1) := by
  constructor <;> decide

/-- Claim C2 amended: toggleFollow fails NotFound when the playlist is
absent; otherwise — with no visibility check and no self-follow check, for
any requester including the owner and non-owners of private playlists — it
flips the requester's membership in the follower set and returns the new
state together with the re-fetched follower count. -/
theorem toggleFollow_unguarded (db : DB) (viewer pid : MongoId) (p : Playlist)
    (hp : findPlaylist db pid = some p)
    (hfields : playlistFieldsValid p = true)
    (hvalid : validTracks db p.tracks = true) :
    ∃ db' cnt, PlaylistController.toggleFollow db viewer pid =
        .ok (db', !(p.followers.contains viewer), cnt) ∧
      ∃ q, findPlaylist db' pid = some q ∧
        q.followers.contains viewer = !(p.followers.contains viewer) ∧
        cnt = q.followers.length := by
  rw [toggleFollow_eq db viewer pid p hp]
  by_cases hf : p.followers.contains viewer = true
  · rw [if_pos hf]
    unfold Playlist.removeFollower
    have hsave := savePlaylist_ok db
      { p with followers := p.followers.filter (fun i => !(i == viewer)) }
      hfields hvalid
    rw [hsave]
    have hfind := findPlaylist_after_save db p
      { p with followers := p.followers.filter (fun i => !(i == viewer)) } pid hp rfl
    refine ⟨_, (p.followers.filter (fun i => !(i == viewer))).length,
      ?_, _, hfind, ?_, ?_⟩
    · simp only [Except.map]
      rw [hfind]
    · simp only [hf, Bool.not_true]
      exact contains_filter_out p.followers viewer
    · rfl
  · have hcf : p.followers.contains viewer = false := by simpa using hf
    rw [hcf]
    simp only [Bool.false_eq_true, if_false]
    unfold Playlist.addFollower
    rw [hcf]
    simp only [Bool.false_eq_true, if_false]
    have hsave := savePlaylist_ok db
      { p with followers := p.followers ++ [viewer] } hfields hvalid
    rw [hsave]
    have hfind := findPlaylist_after_save db p
      { p with followers := p.followers ++ [viewer] } pid hp rfl
    refine ⟨_, (p.followers ++ [viewer]).length, ?_, _, hfind, ?_, ?_⟩
    · simp only [Except.map]
      rw [hfind]
    · simp only [hcf, Bool.not_false]
      exact contains_append_self p.followers viewer
    · rfl

/-- A private track is Forbidden to every requester other than its owner,
anonymous requesters included. -/
theorem getOne_forbidden (db : DB) (viewer : Option MongoId) (id : MongoId)
    (t : MusicTrack)
    (hfind : findTrack db id = some t) (hpriv : t.isPublic = false)
    (hnotowner : ∀ v, viewer = some v → v ≠ t.owner) :
    TrackController.getOne db viewer id =
      .error ⟨"Not authorized to access this track", 403⟩ := by
  cases viewer with
  | none =>
    unfold TrackController.getOne
    rw [hfind]
    simp [hpriv]
  | some v =>
    have hof : (t.owner == v) = false := by
      simpa using Ne.symm (hnotowner v rfl)
    unfold TrackController.getOne
    rw [hfind]
    simp [hpriv, hof]

/-- When the playlist is found and owned by the requester, the addTrack
controller reduces to the addTrack method plus the re-fetch. -/
theorem ctrlAddTrack_eq (db : DB) (viewer pid trackId : MongoId) (p : Playlist)
    (hp : findPlaylist db pid = some p) (howner : p.owner = viewer) :
    PlaylistController.addTrack db viewer pid trackId =
      (Playlist.addTrack db p trackId).map (fun db' => (db', findPlaylist db' pid)) := by
  unfold PlaylistController.addTrack
  rw [hp]
  simp [howner]

/-- When the playlist is found and owned by the requester, the removeTrack
controller reduces to the removeTrack method plus the re-fetch. -/
theorem ctrlRemoveTrack_eq (db : DB) (viewer pid trackId : MongoId) (p : Playlist)
    (hp : findPlaylist db pid = some p) (howner : p.owner = viewer) :
    PlaylistController.removeTrack db viewer pid trackId =
      (Playlist.removeTrack db p trackId).map (fun db' => (db', findPlaylist db' pid)) := by
  unfold PlaylistController.removeTrack
  rw [hp]
  simp [howner]

/-- Claim C4: for an owner and an existing track, adding it twice leaves a
playlist whose sequence contains the id exactly once; the second call
succeeds and changes nothing. -/
theorem addTrack_idempotent (db : DB) (viewer pid trackId : MongoId) (p : Playlist)
    (hp : findPlaylist db pid = some p)
    (howner : p.owner = viewer)
    (hnodup : p.tracks.Nodup)
    (hfields : playlistFieldsValid p = true)
    (hvalid : validTracks db p.tracks = true)
    (htrack : db.tracks.any (fun t => t._id == trackId) = true) :
    ∃ db1 p1, PlaylistController.addTrack db viewer pid trackId = .ok (db1, some p1) ∧
      p1.tracks.count trackId = 1 ∧
      PlaylistController.addTrack db1 viewer pid trackId = .ok (db1, some p1) := by
  rw [ctrlAddTrack_eq db viewer pid trackId p hp howner]
  by_cases hmem : p.tracks.contains trackId = true
  · -- already present: no save, nothing changes, still success
    have hml : trackId ∈ p.tracks := List.elem_iff.mp hmem
    refine ⟨db, p, ?_, ?_, ?_⟩
    · unfold Playlist.addTrack
      rw [if_pos hmem]
      simp [Except.map, hp]
    · exact List.count_eq_one_of_mem hnodup hml
    · rw [ctrlAddTrack_eq db viewer pid trackId p hp howner]
      unfold Playlist.addTrack
      rw [if_pos hmem]
      simp [Except.map, hp]
  · -- absent: push, dedup on save, validate, persist
    have hmemf : p.tracks.contains trackId = false := by simpa using hmem
    have hv2 : validTracks db (dedupFirst (p.tracks ++ [trackId])) = true := by
      unfold validTracks at hvalid ⊢
      rw [List.all_eq_true] at hvalid ⊢
      intro i hi
      rcases List.mem_append.mp ((mem_dedupFirst i _).mp hi) with h | h
      · exact hvalid i h
      · simp at h; subst h; exact htrack
    have hsave := savePlaylist_ok db
      { p with tracks := dedupFirst (p.tracks ++ [trackId]) } hfields hv2
    have hfind := findPlaylist_after_save db p
      { p with tracks := dedupFirst (p.tracks ++ [trackId]) } pid hp rfl
    have hmem1 : trackId ∈ dedupFirst (p.tracks ++ [trackId]) :=
      (mem_dedupFirst trackId _).mpr (List.mem_append.mpr (Or.inr (by simp)))
    refine ⟨savedPlaylists db { p with tracks := dedupFirst (p.tracks ++ [trackId]) },
      { p with tracks := dedupFirst (p.tracks ++ [trackId]) }, ?_, ?_, ?_⟩
    · unfold Playlist.addTrack
      rw [hmemf]
      simp only [Bool.false_eq_true, if_false, hsave, Except.map]
      rw [hfind]
    · exact List.count_eq_one_of_mem (nodup_dedupFirst _) hmem1
    · rw [ctrlAddTrack_eq _ viewer pid trackId _ hfind howner]
      unfold Playlist.addTrack
      rw [if_pos (List.elem_iff.mpr hmem1)]
      simp [Except.map, hfind]

/-- Witness for addTrack_idempotent at the concrete fixture. -/
theorem addTrack_idempotent_witness :
    ∃ db1 p1, PlaylistController.addTrack exDB 1 20 11 = .ok (db1, some p1) ∧
      p1.tracks.count 11 = 1 ∧
      PlaylistController.addTrack db1 1 20 11 = .ok (db1, some p1) :=
  addTrack_idempotent exDB 1 20 11 exPlaylist (by decide) (by decide)
    (by decide) (by decide) (by decide) (by decide)

/-- Claim C8, as stated, fails on the code: removing track 99 — which is
not a member of playlist 20 — succeeds with the track sequence unchanged
instead of failing NotFound. -/
theorem removeTrack_nonmember_ok_cx :
    ((PlaylistController.removeTrack exDB 1 20 99).toOption.map
      (fun r => r.2.map (fun p => p.tracks))) = some (some [10]) := by
  decide

/-- Claim C8 amended: removeTrack is owner-only and fails NotFound only
when the playlist itself is absent; for a present playlist it always
succeeds, removing every occurrence of the id — removing a non-member id
succeeds and leaves the deduplicated sequence unchanged. -/
theorem removeTrack_total_behavior (db : DB) (viewer pid trackId : MongoId)
    (p : Playlist)
    (hp : findPlaylist db pid = some p) (howner : p.owner = viewer)
    (hfields : playlistFieldsValid p = true)
    (hvalid : validTracks db p.tracks = true) :
    ∃ db1 p1, PlaylistController.removeTrack db viewer pid trackId =
        .ok (db1, some p1) ∧
      p1.tracks = dedupFirst (p.tracks.filter (fun i => !(i == trackId))) ∧
      p1.tracks.contains trackId = false ∧
      (p.tracks.contains trackId = false → p.tracks.Nodup →
        p1.tracks = p.tracks) := by
  rw [ctrlRemoveTrack_eq db viewer pid trackId p hp howner]
  have hv2 : validTracks db
      (dedupFirst (p.tracks.filter (fun i => !(i == trackId)))) = true := by
    unfold validTracks at hvalid ⊢
    rw [List.all_eq_true] at hvalid ⊢
    intro i hi
    exact hvalid i (List.mem_of_mem_filter ((mem_dedupFirst i _).mp hi))
  have hsave := savePlaylist_ok db
    { p with tracks := dedupFirst (p.tracks.filter (fun i => !(i == trackId))) }
    hfields hv2
  have hfind := findPlaylist_after_save db p
    { p with tracks := dedupFirst (p.tracks.filter (fun i => !(i == trackId))) }
    pid hp rfl
  refine ⟨savedPlaylists db
      { p with tracks := dedupFirst (p.tracks.filter (fun i => !(i == trackId))) },
    { p with tracks := dedupFirst (p.tracks.filter (fun i => !(i == trackId))) },
    ?_, rfl, ?_, ?_⟩
  · unfold Playlist.removeTrack
    simp only [hsave, Except.map]
    rw [hfind]
  · rw [Bool.eq_false_iff]
    intro hc
    have h1 := (mem_dedupFirst _ _).mp (List.elem_iff.mp hc)
    have := List.of_mem_filter h1
    simp at this
  · intro hnm hnd
    have hfix : p.tracks.filter (fun i => !(i == trackId)) = p.tracks := by
      apply List.filter_eq_self.mpr
      intro a ha
      have : a ≠ trackId := by
        rintro rfl
        rw [Bool.eq_false_iff] at hnm
        exact hnm (List.elem_iff.mpr ha)
      simpa using this
    show dedupFirst (p.tracks.filter (fun i => !(i == trackId))) = p.tracks
    rw [hfix]
    exact dedupFirst_eq_self _ hnd

/-- Witness for removeTrack_total_behavior at the concrete fixture. -/
theorem removeTrack_total_behavior_witness :
    ∃ db1 p1, PlaylistController.removeTrack exDB 1 20 10 =
        .ok (db1, some p1) ∧
      p1.tracks = dedupFirst (exPlaylist.tracks.filter (fun i => !(i == 10))) ∧
      p1.tracks.contains 10 = false ∧
      (exPlaylist.tracks.contains 10 = false → exPlaylist.tracks.Nodup →
        p1.tracks = exPlaylist.tracks) :=
  removeTrack_total_behavior exDB 1 20 10 exPlaylist (by decide) (by decide)
    (by decide) (by decide)

/-- Witness for toggleFollow_unguarded at the concrete fixture. -/
theorem toggleFollow_unguarded_witness :
    ∃ db' cnt, PlaylistController.toggleFollow exDB 2 21 =
        .ok (db', !(exSecret.followers.contains 2), cnt) ∧
      ∃ q, findPlaylist db' 21 = some q ∧
        q.followers.contains 2 = !(exSecret.followers.contains 2) ∧
        cnt = q.followers.length :=
  toggleFollow_unguarded exDB 2 21 exSecret (by decide) (by decide) (by decide)

/-- A found, valid track makes the increment controller succeed, persist
the incremented document and answer with its count. -/
theorem ctrlIncrement_ok (db : DB) (id : MongoId) (t : MusicTrack)
    (hfind : findTrack db id = some t) (hvalid : validTrack t = true) :
    TrackController.incrementPlayCount db id =
      .ok (savedTracks db (MusicTrack.incrementPlayCount t),
        (MusicTrack.incrementPlayCount t).playCount) := by
  unfold TrackController.incrementPlayCount
  rw [hfind]
  show (saveTrack db (MusicTrack.incrementPlayCount t)).map
    (fun db' => (db', (MusicTrack.incrementPlayCount t).playCount)) = _
  rw [saveTrack_ok db (MusicTrack.incrementPlayCount t) hvalid]
  rfl

/-- Claim C5, as stated, fails: the play-count update is a read-then-write
at the application layer, so the interleaved schedule in which both reads
precede both writes turns two concurrent increments of an initial count 0
into a stored count of 1, not 0 + 2. -/
theorem incrementPlay_lost_update_cx :
    ((interleavedIncrements exDB 10).toOption.map
      (fun db' => (findTrack db' 10).map (fun t => t.playCount))) =
      some (some 1) ∧ ¬((1 : Nat) = 0 + 2) := by
  constructor
  · decide
  · decide

/-- Claim C5 amended: incrementPlay is findById followed by an in-memory
`playCount += 1` and a save of the computed value (not an atomic
increment).  Run sequentially, each call adds one — two calls add two —
but the interleaved schedule in which both reads precede either save loses
an update: the final stored count is the initial count plus one. -/
theorem incrementPlay_read_then_write (db : DB) (id : MongoId) (t : MusicTrack)
    (hfind : findTrack db id = some t) (hvalid : validTrack t = true) :
    TrackController.incrementPlayCount db id =
      .ok (savedTracks db (MusicTrack.incrementPlayCount t), t.playCount + 1) ∧
    (∀ db1 n1, TrackController.incrementPlayCount db id = .ok (db1, n1) →
      ∀ db2 n2, TrackController.incrementPlayCount db1 id = .ok (db2, n2) →
        n2 = t.playCount + 2) ∧
    interleavedIncrements db id =
      .ok (savedTracks (savedTracks db (MusicTrack.incrementPlayCount t))
        (MusicTrack.incrementPlayCount t)) ∧
    findTrack (savedTracks (savedTracks db (MusicTrack.incrementPlayCount t))
        (MusicTrack.incrementPlayCount t)) id =
      some (MusicTrack.incrementPlayCount t) := by
  have h1 := ctrlIncrement_ok db id t hfind hvalid
  have hfind1 : findTrack (savedTracks db (MusicTrack.incrementPlayCount t)) id =
      some (MusicTrack.incrementPlayCount t) :=
    findTrack_after_save db t (MusicTrack.incrementPlayCount t) id hfind rfl
  refine ⟨h1, ?_, ?_, ?_⟩
  · intro db1 n1 hc1 db2 n2 hc2
    rw [h1] at hc1
    obtain ⟨hdb1, hn1⟩ := Prod.mk.injEq .. ▸ Except.ok.inj hc1
    subst hdb1
    have h2 := ctrlIncrement_ok _ id (MusicTrack.incrementPlayCount t) hfind1 hvalid
    rw [h2] at hc2
    obtain ⟨hdb2, hn2⟩ := Prod.mk.injEq .. ▸ Except.ok.inj hc2
    subst hn2
    rfl
  · unfold interleavedIncrements
    rw [hfind]
    show (match saveTrack db (MusicTrack.incrementPlayCount t) with
      | .error e => Except.error e
      | .ok db1 => saveTrack db1 (MusicTrack.incrementPlayCount t)) = _
    rw [saveTrack_ok db (MusicTrack.incrementPlayCount t) hvalid]
    show saveTrack (savedTracks db (MusicTrack.incrementPlayCount t))
      (MusicTrack.incrementPlayCount t) = _
    rw [saveTrack_ok _ (MusicTrack.incrementPlayCount t) hvalid]
  · exact findTrack_after_save _ (MusicTrack.incrementPlayCount t)
      (MusicTrack.incrementPlayCount t) id hfind1 rfl

/-- Witness for incrementPlay_read_then_write at the concrete fixture. -/
theorem incrementPlay_read_then_write_witness :
    TrackController.incrementPlayCount exDB 10 =
      .ok (savedTracks exDB (MusicTrack.incrementPlayCount exTrack),
        exTrack.playCount + 1) ∧
    (∀ db1 n1, TrackController.incrementPlayCount exDB 10 = .ok (db1, n1) →
      ∀ db2 n2, TrackController.incrementPlayCount db1 10 = .ok (db2, n2) →
        n2 = exTrack.playCount + 2) ∧
    interleavedIncrements exDB 10 =
      .ok (savedTracks (savedTracks exDB (MusicTrack.incrementPlayCount exTrack))
        (MusicTrack.incrementPlayCount exTrack)) ∧
    findTrack (savedTracks (savedTracks exDB (MusicTrack.incrementPlayCount exTrack))
        (MusicTrack.incrementPlayCount exTrack)) 10 =
      some (MusicTrack.incrementPlayCount exTrack) :=
  incrementPlay_read_then_write exDB 10 exTrack (by decide) (by decide)

/-- The stripped-filter lookup is just the head of the users collection. -/
theorem findOne_strip_head (users : List UserDoc) :
    findOneByRefreshToken users = users.head? := by
  cases users with
  | nil => rfl
  | cons x xs => rfl

/-- Claim C6 states what the repository itself intends — its tests expect
401 for an invalid refresh token, its User type declaration carries a
refreshToken field, and logout tries to clear one — but the code does the
opposite: no handler ever stores a token, the schema has no refreshToken
path, and with strictQuery enabled the lookup filter is stripped, so once
any user exists EVERY non-empty presented string refreshes successfully as
the FIRST user in the collection.  The endpoint answers 200 with fresh
tokens for that user whatever token is presented, the store is unchanged
(nothing is rotated or invalidated, and the previously issued token keeps
working), and no per-user match ever happens. -/
theorem refreshToken_accepts_any_token (db db' : DB)
    (username email password : String) (newId : MongoId)
    (access refresh : String)
    (hreg : AuthController.register db username email password newId =
      .ok (db', access, refresh))
    (hclean : noStoredRefreshTokens db = true) :
    noStoredRefreshTokens db' = true ∧
    (∀ tok : String, tok ≠ "" → ∃ u, db'.users.head? = some u ∧
      AuthController.refreshToken db' (some tok) =
        .ok (db', signAccessToken u._id, signRefreshToken u._id)) ∧
    refresh = signRefreshToken newId := by
  unfold AuthController.register at hreg
  split at hreg
  · cases hreg
  · have h := Except.ok.inj hreg
    rw [Prod.mk.injEq, Prod.mk.injEq] at h
    obtain ⟨hdb, hac, hrf⟩ := h
    subst hdb
    have husers : noStoredRefreshTokens
        { db with users := db.users ++
          [{ _id := newId, username := username, email := email,
             password := password, refreshToken := none }] } = true := by
      unfold noStoredRefreshTokens at hclean ⊢
      rw [List.all_append]
      rw [hclean]
      rfl
    refine ⟨husers, ?_, ?_⟩
    · intro tok htok
      have hne : (tok == "") = false := by
        rw [Bool.eq_false_iff]
        intro hb
        exact htok (by simpa using hb)
      obtain ⟨u, hu⟩ : ∃ u, (db.users ++
          [({ _id := newId, username := username, email := email,
              password := password, refreshToken := none } : UserDoc)]).head? =
          some u := by
        cases db.users with
        | nil => exact ⟨_, rfl⟩
        | cons x xs => exact ⟨x, rfl⟩
      refine ⟨u, hu, ?_⟩
      unfold AuthController.refreshToken
      dsimp only
      rw [hne]
      simp only [Bool.false_eq_true, if_false]
      rw [findOne_strip_head]
      rw [hu]
    · exact hrf.symm

/-- Witness for refreshToken_accepts_any_token at the concrete fixture. -/
theorem refreshToken_accepts_any_token_witness :
    noStoredRefreshTokens exDBreg = true ∧
    (∀ tok : String, tok ≠ "" → ∃ u, exDBreg.users.head? = some u ∧
      AuthController.refreshToken exDBreg (some tok) =
        .ok (exDBreg, signAccessToken u._id, signRefreshToken u._id)) ∧
    signRefreshToken 7 = signRefreshToken 7 :=
  refreshToken_accepts_any_token {} exDBreg ("carol") ("c@host") ("h7") 7
    (signAccessToken 7) (signRefreshToken 7) (by decide) (by decide)

/-- Claim C7, as stated, fails: the owner (user 1) sends a patch whose only
field is the owning user id, and the update succeeds with the stored owner
changed to user 2 — there is no allow-list and the owner id is mutable. -/
theorem update_changes_owner_cx :
    ((TrackController.update exDB 1 10 { owner := some 2 }).toOption.map
      (fun r => r.2.owner)) = some 2 ∧ ¬((2 : MongoId) = 1) := by
  constructor
  · decide
  · decide

/-- Claim C7 amended: update is owner-gated, but Object.assign applies
every schema field present in the body — including the owning user id —
while fields absent from the body stay unchanged and keys outside the
schema are dropped (ignored, not errored). -/
theorem update_applies_all_schema_fields (db : DB) (viewer id : MongoId)
    (t : MusicTrack) (b : TrackUpdateBody)
    (hfind : findTrack db id = some t) (howner : t.owner = viewer)
    (hb : b.tags = none)
    (hvalid : validTrack (objectAssign t b) = true) :
    TrackController.update db viewer id b =
      .ok (savedTracks db (objectAssign t b), objectAssign t b) ∧
    (objectAssign t b).owner = b.owner.getD t.owner ∧
    (b.title = none → (objectAssign t b).title = t.title) ∧
    (b.isPublic = none → (objectAssign t b).isPublic = t.isPublic) ∧
    (∀ e, TrackController.update db viewer id { b with extra := e } =
      TrackController.update db viewer id b) := by
  refine ⟨?_, rfl, ?_, ?_, ?_⟩
  · unfold TrackController.update
    rw [hfind]
    show (if (!(t.owner == viewer)) = true then
        Except.error ⟨"Not authorized to update this track", 403⟩
      else
        (saveTrack db (if b.tags.isSome then
            { objectAssign t b with tags := normalizeTags (objectAssign t b).tags }
          else objectAssign t b)).map
          (fun db' => (db', if b.tags.isSome then
            { objectAssign t b with tags := normalizeTags (objectAssign t b).tags }
          else objectAssign t b))) = _
    rw [howner]
    simp only [beq_self_eq_true, Bool.not_true, Bool.false_eq_true, if_false,
      hb, Option.isSome_none]
    rw [saveTrack_ok db (objectAssign t b) hvalid]
    rfl
  · intro h
    simp [objectAssign, h]
  · intro h
    simp [objectAssign, h]
  · intro e
    rfl

/-- Witness for update_applies_all_schema_fields at the concrete fixture. -/
theorem update_applies_all_schema_fields_witness :
    TrackController.update exDB 1 10 { owner := some 2 } =
      .ok (savedTracks exDB (objectAssign exTrack { owner := some 2 }),
        objectAssign exTrack { owner := some 2 }) ∧
    (objectAssign exTrack { owner := some 2 }).owner =
      (some 2).getD exTrack.owner ∧
    (({ owner := some 2 } : TrackUpdateBody).title = none →
      (objectAssign exTrack { owner := some 2 }).title = exTrack.title) ∧
    (({ owner := some 2 } : TrackUpdateBody).isPublic = none →
      (objectAssign exTrack { owner := some 2 }).isPublic = exTrack.isPublic) ∧
    (∀ e, TrackController.update exDB 1 10
        { ({ owner := some 2 } : TrackUpdateBody) with extra := e } =
      TrackController.update exDB 1 10 { owner := some 2 }) :=
  update_applies_all_schema_fields exDB 1 10 exTrack { owner := some 2 }
    (by decide) (by decide) rfl (by decide)

/-- Claim C10: POST tracks/:id/play is registered before the auth
middleware and checks no visibility: any caller, authenticated or not,
increments any existing track — even a private track of another user that
getOne refuses them — and receives the previous count plus one; an absent
id is the only failure, NotFound. -/
theorem play_endpoint_public (db : DB) (id : MongoId) (t : MusicTrack)
    (auth : Option MongoId)
    (hfind : findTrack db id = some t) (hvalid : validTrack t = true) :
    playEndpoint db auth id =
      .ok (savedTracks db (MusicTrack.incrementPlayCount t), t.playCount + 1) ∧
    findTrack (savedTracks db (MusicTrack.incrementPlayCount t)) id =
      some (MusicTrack.incrementPlayCount t) ∧
    (t.isPublic = false → ∀ v : Option MongoId,
      (∀ w, v = some w → w ≠ t.owner) →
      TrackController.getOne db v id =
        .error ⟨"Not authorized to access this track", 403⟩) ∧
    (∀ k, findTrack db k = none →
      playEndpoint db auth k = .error ⟨"Track not found", 404⟩) := by
  refine ⟨ctrlIncrement_ok db id t hfind hvalid, ?_, ?_, ?_⟩
  · exact findTrack_after_save db t (MusicTrack.incrementPlayCount t) id hfind rfl
  · intro hpriv v hv
    exact getOne_forbidden db v id t hfind hpriv hv
  · intro k hk
    unfold playEndpoint TrackController.incrementPlayCount
    rw [hk]

/-- Witness for play_endpoint_public: an anonymous caller increments the
private track 11 of user 1. -/
theorem play_endpoint_public_witness :
    playEndpoint exDB none 11 =
      .ok (savedTracks exDB (MusicTrack.incrementPlayCount exPrivate),
        exPrivate.playCount + 1) ∧
    findTrack (savedTracks exDB (MusicTrack.incrementPlayCount exPrivate)) 11 =
      some (MusicTrack.incrementPlayCount exPrivate) ∧
    (exPrivate.isPublic = false → ∀ v : Option MongoId,
      (∀ w, v = some w → w ≠ exPrivate.owner) →
      TrackController.getOne exDB v 11 =
        .error ⟨"Not authorized to access this track", 403⟩) ∧
    (∀ k, findTrack exDB k = none →
      playEndpoint exDB none k = .error ⟨"Track not found", 404⟩) :=
  play_endpoint_public exDB 11 exPrivate none (by decide) (by decide)

end DollopMusic

